import Mathlib

/-!
Shallow embedding of the request-governance core of the cinevault
repository (Go): validator, bearer-token authentication middleware,
authorization gates, optimistic-concurrency updates, rate limiting,
background-task tracking and graceful shutdown.

Each definition is translated from the corresponding Go function; the
source file and symbol are named in its doc comment.  Machine integers
are modelled as `Int`/`Nat` (no arithmetic here approaches overflow),
byte strings as `String`, wall-clock instants as `Int` seconds, and
SQL tables as
lists of rows keyed by the unique primary-key `id` column.
-/

namespace Cinevault

/-! ## internal/validator/validator.go -/

/-- `validator.Validator`: a map from field names to error messages,
modelled as an association list (`AddError` keeps the first message per
key, as the Go map-guarded insert does). -/
structure Validator where
  errors : List (String × String)
deriving Repr, DecidableEq

/-- `validator.New`. -/
def Validator.new : Validator := ⟨[]⟩

/-- `Validator.Valid`: true when no errors are recorded. -/
def Validator.Valid (v : Validator) : Bool :=
  v.errors.isEmpty

/-- `Validator.AddError`: record `message` for `key` unless `key`
already has an error. -/
def Validator.AddError (v : Validator) (key message : String) : Validator :=
  if v.errors.any (fun p => p.1 == key) then v
  else ⟨v.errors ++ [(key, message)]⟩

/-- `Validator.Check`: add an error when the condition is false. -/
def Validator.Check (v : Validator) (ok : Bool) (key message : String) : Validator :=
  if ok then v else v.AddError key message

/-- `validator.Unique`: Go builds a set from the values and compares
cardinalities; equivalently, the list has no duplicates. -/
def Unique (values : List String) : Bool :=
  values.eraseDups.length == values.length

/-! ## Token scopes and the plaintext-token shape validator
(src/unnamed/part_001, internal/data tokens file) -/

def ScopeActivation : String := "activation"
def ScopeAuthentication : String := "authentication"
def ScopePasswordReset : String := "password-reset"

/-- `data.ValidateTokenPlaintext` (part_001 lines 56-63): the token must
be non-empty and exactly 26 bytes long.  (These are the only two checks
the source performs.) -/
def ValidateTokenPlaintext (v : Validator) (tokenPlaintext : String) : Validator :=
  (v.Check (tokenPlaintext != "") "token" "must be provided").Check
    (tokenPlaintext.utf8ByteSize == 26) "token" "must be 26 bytes long"

/-- The standard base32 alphabet used by `generateToken`
(`base32.StdEncoding`, part_001 line 48): tokens the system generates
are drawn from this character set. -/
def base32StdAlphabet : List Char :=
  "ABCDEFGHIJKLMNOPQRSTUVWXYZ234567".toList

/-! ## Users and pointer identity (internal/data/users.go) -/

/-- The value part of `data.User` (fields of the Go struct; the
password is carried as its stored hash bytes). -/
structure UserVal where
  id : Int
  createdAt : Int
  name : String
  email : String
  passwordHash : List Nat
  activated : Bool
  version : Int
deriving Repr, DecidableEq

/-- A Go `*data.User`: a heap address together with the pointed-to
value.  Pointer comparison in Go compares only the address. -/
structure UserPtr where
  addr : Nat
  val : UserVal
deriving Repr, DecidableEq

/-- `data.AnonymousUser = &User{}` (users.go line 17): a distinguished
allocation holding the zero-valued `User`.  We give it address 0; every
other allocation has a different address. -/
def AnonymousUser : UserPtr :=
  { addr := 0
    val := { id := 0, createdAt := 0, name := "", email := ""
             passwordHash := [], activated := false, version := 0 } }

/-- `User.IsAnonymous` (users.go lines 31-33): `u == AnonymousUser` is
Go pointer equality, i.e. address comparison only — the pointed-to
fields play no part. -/
def UserPtr.IsAnonymous (u : UserPtr) : Bool :=
  u.addr == AnonymousUser.addr

/-! ## Authentication middleware (src/unnamed/part_004, `authenticate`) -/

/-- Failures surfaced by the data layer (internal/data). -/
inductive DataErr where
  | recordNotFound
  | editConflict
  | duplicateEmail
  | other
deriving Repr, DecidableEq

/-- What the `authenticate` middleware does with a request, tracked
together with how many times the credential-lookup collaborator
(`Users.GetForToken`) was contacted. -/
inductive AuthResult where
  | proceed (u : UserPtr)
  | invalidAuthenticationToken
  | serverErrorResp
deriving Repr, DecidableEq

/-- The pure front half of `authenticate` (part_004 lines 94-120): what
the middleware decides before any collaborator is contacted. -/
inductive AuthDecision where
  | anonymous
  | invalidToken
  | lookupToken (t : String)
deriving Repr, DecidableEq

/-- Helper for `splitOnSpace`: accumulate the current field (reversed)
while scanning. -/
def splitSpaceAux : List Char → List Char → List String
  | [], acc => [acc.reverse.asString]
  | c :: rest, acc =>
    if c == ' ' then acc.reverse.asString :: splitSpaceAux rest []
    else splitSpaceAux rest (c :: acc)

/-- Go's `strings.Split(s, " ")` (part_004 line 105): cut the string at
every space; `n` spaces yield `n+1` (possibly empty) fields. -/
def splitOnSpace (s : String) : List String :=
  splitSpaceAux s.toList []

/-- `authenticate`, lines 94-120: empty header ⇒ anonymous; header not
exactly `Bearer <t>` ⇒ invalid-token response; `<t>` failing
`ValidateTokenPlaintext` ⇒ invalid-token response; otherwise the token
goes to the lookup. -/
def authenticateDecision (authorizationHeader : String) : AuthDecision :=
  if authorizationHeader == "" then
    AuthDecision.anonymous
  else
    match splitOnSpace authorizationHeader with
    | [scheme, token] =>
      if scheme == "Bearer" then
        if (ValidateTokenPlaintext Validator.new token).Valid then
          AuthDecision.lookupToken token
        else
          AuthDecision.invalidToken
      else
        AuthDecision.invalidToken
    | _ => AuthDecision.invalidToken

/-- `authenticate` (part_004 lines 89-141), with the credential-lookup
collaborator `getForToken scope token` passed in; the second component
counts calls made to it.  `ErrRecordNotFound` from the lookup maps to
the invalid-token response; any other lookup error to a server error. -/
def authenticate (getForToken : String → String → Except DataErr UserPtr)
    (authorizationHeader : String) : AuthResult × Nat :=
  match authenticateDecision authorizationHeader with
  | AuthDecision.anonymous => (AuthResult.proceed AnonymousUser, 0)
  | AuthDecision.invalidToken => (AuthResult.invalidAuthenticationToken, 0)
  | AuthDecision.lookupToken t =>
    match getForToken ScopeAuthentication t with
    | Except.ok u => (AuthResult.proceed u, 1)
    | Except.error DataErr.recordNotFound => (AuthResult.invalidAuthenticationToken, 1)
    | Except.error _ => (AuthResult.serverErrorResp, 1)

/-! ## Authorization gates (src/unnamed/part_004, lines 144-193) -/

/-- Terminal outcomes of the gate chain; `handled` stands for the
wrapped business handler having produced the response. -/
inductive GateResponse where
  | authenticationRequired
  | inactiveAccount
  | notPermitted
  | serverErrorResp
  | handled
deriving Repr, DecidableEq

/-- `data.Permissions` (slice of permission codes). -/
abbrev Permissions := List String

/-- `Permissions.Include` (linear scan for an exact match). -/
def Permissions.Include (p : Permissions) (code : String) : Bool :=
  List.any p (fun c => code == c)

/-- A handler in the chain: consumes the context user, yields a
response paired with the number of permission-lookup collaborator
calls made. -/
abbrev Handler := UserPtr → GateResponse × Nat

/-- `requireAuthenticatedUser` (lines 144-155): anonymous principal ⇒
401 authentication-required, next handler not invoked. -/
def requireAuthenticatedUser (next : Handler) : Handler :=
  fun user =>
    if user.IsAnonymous then (GateResponse.authenticationRequired, 0)
    else next user

/-- `requireActivatedUser` (lines 158-171): the activation check,
itself wrapped in `requireAuthenticatedUser`. -/
def requireActivatedUser (next : Handler) : Handler :=
  requireAuthenticatedUser (fun user =>
    if !user.val.activated then (GateResponse.inactiveAccount, 0)
    else next user)

/-- `requirePermission` (lines 174-193): fetches the user's permission
set from the collaborator `getAllForUser` (counted), 403 when the code
is absent; the whole check wrapped in `requireActivatedUser`. -/
def requirePermission (code : String)
    (getAllForUser : Int → Except DataErr Permissions) (next : Handler) : Handler :=
  requireActivatedUser (fun user =>
    match getAllForUser user.val.id with
    | Except.error _ => (GateResponse.serverErrorResp, 1)
    | Except.ok permissions =>
      if !(Permissions.Include permissions code) then (GateResponse.notPermitted, 1)
      else
        let r := next user
        (r.1, r.2 + 1))

/-! ## Movies and the conditional update (internal/data/movies.go) -/

/-- `data.Movie`: a movie row / in-memory record (Year, Runtime as
`Int`; `CreatedAt` as an abstract timestamp). -/
structure Movie where
  id : Int
  createdAt : Int
  title : String
  year : Int
  runtime : Int
  genres : List String
  version : Int
deriving Repr, DecidableEq

/-- A SQL table is an association list of rows; the schema's primary
key makes the `id` column unique, which theorems state as a `Nodup`
hypothesis on `db.map id`. -/
abbrev MoviesTable := List Movie

/-- The row produced for `movie` by the `UPDATE movies SET … ,
version = version + 1` statement applied to stored row `r`
(movies.go lines 97-101): business fields from the caller, version
incremented, `created_at` untouched. -/
def movieRowAfterUpdate (movie r : Movie) : Movie :=
  { r with title := movie.title, year := movie.year,
           runtime := movie.runtime, genres := movie.genres,
           version := r.version + 1 }

/-- `MovieModel.Update` (movies.go lines 96-126): one conditional write
`WHERE id = $5 AND version = $6 … RETURNING version`.  Rows matching
both id and version are rewritten with version+1; the returned version
(of the first matched row) is scanned into the caller's `movie.Version`.
Zero matched rows ⇒ `sql.ErrNoRows` ⇒ `ErrEditConflict`, table
untouched. -/
def MovieModel.Update (db : MoviesTable) (movie : Movie) :
    MoviesTable × Except DataErr Movie :=
  let matched := db.filter (fun r => r.id == movie.id && r.version == movie.version)
  match matched with
  | [] => (db, Except.error DataErr.editConflict)
  | r :: _ =>
    let db' := db.map (fun x =>
      if x.id == movie.id && x.version == movie.version
      then movieRowAfterUpdate movie x else x)
    (db', Except.ok { movie with version := r.version + 1 })

/-- `MovieModel.Get` (movies.go lines 60-93): id < 1 or no matching row
⇒ `ErrRecordNotFound`; otherwise the stored row. -/
def MovieModel.Get (db : MoviesTable) (id : Int) : Except DataErr Movie :=
  if id < 1 then Except.error DataErr.recordNotFound
  else
    match db.find? (fun r => r.id == id) with
    | some r => Except.ok r
    | none => Except.error DataErr.recordNotFound

/-! ## Users table and `UserModel.Update` (internal/data/users.go) -/

abbrev UsersTable := List UserVal

/-- The row produced for `user` by the `UPDATE users SET … ,
version = version + 1` statement applied to stored row `r`
(users.go lines 158-162). -/
def userRowAfterUpdate (user r : UserVal) : UserVal :=
  { r with name := user.name, email := user.email,
           passwordHash := user.passwordHash, activated := user.activated,
           version := r.version + 1 }

/-- `UserModel.Update` (users.go lines 157-189): same conditional-write
shape as the movie update, with one extra failure mode — the table's
unique index on `email` rejects a write that would duplicate another
row's email (`ErrDuplicateEmail`, checked by the engine only when a row
actually matched and is being written). -/
def UserModel.Update (db : UsersTable) (user : UserVal) :
    UsersTable × Except DataErr UserVal :=
  let matched := db.filter (fun r => r.id == user.id && r.version == user.version)
  match matched with
  | [] => (db, Except.error DataErr.editConflict)
  | r :: _ =>
    if db.any (fun x => x.id != user.id && x.email == user.email) then
      (db, Except.error DataErr.duplicateEmail)
    else
      let db' := db.map (fun x =>
        if x.id == user.id && x.version == user.version
        then userRowAfterUpdate user x else x)
      (db', Except.ok { user with version := r.version + 1 })

/-! ## Movie validation and the update handler
(internal/data/movies.go `ValidateMovie`; src/unnamed/part_002
`updateMovieHandler`; src/unnamed/part_003 `readIDParam`) -/

/-- `data.ValidateMovie` (movies.go lines 25-37).  `nowYear` stands for
`time.Now().Year()`.  Go's nil/empty distinction for the genres slice
collapses in the model: a `[]` genres list fails the "must be provided"
check (as nil does in Go) as well as the length check. -/
def ValidateMovie (v : Validator) (nowYear : Int) (movie : Movie) : Validator :=
  ((((((((((v.Check (movie.title != "") "title" "must be provided").Check
    (movie.title.utf8ByteSize ≤ 500) "title" "must not be more than 500 bytes long").Check
    (movie.year != 0) "year" "must be provided").Check
    (1888 ≤ movie.year) "year" "must be greater than 1888").Check
    (movie.year ≤ nowYear) "year" "must not be in the future").Check
    (movie.runtime != 0) "runtime" "must be provided").Check
    (0 < movie.runtime) "runtime" "must be a positive integer").Check
    (movie.genres != ([] : List String)) "genres" "must be provided").Check
    (1 ≤ movie.genres.length) "genres" "must contain at least 1 genre").Check
    (movie.genres.length ≤ 5) "genres" "must not contain more than 5 genres").Check
    (Unique movie.genres) "genres" "must not contain duplicate values"

/-- `readIDParam` (part_003 lines 18-25): `none` models a parse
failure of the `id` URL parameter; a parsed id below 1 is also
rejected. -/
def readIDParam (p : Option Int) : Except String Int :=
  match p with
  | none => Except.error "invalid id parameter"
  | some id => if id < 1 then Except.error "invalid id parameter" else Except.ok id

/-- The partial-update body of `updateMovieHandler` (part_002 lines
122-127): every field optional. -/
structure MovieUpdateInput where
  title : Option String
  year : Option Int
  runtime : Option Int
  genres : Option (List String)
deriving Repr, DecidableEq

/-- Responses `updateMovieHandler` can produce. -/
inductive MovieHandlerResponse where
  | notFoundResp
  | badRequestResp
  | failedValidationResp
  | editConflictResp
  | serverErrorResp
  | okMovie (m : Movie)
deriving Repr, DecidableEq

/-- `updateMovieHandler` (part_002 lines 98-180).  `dbGet` is the table
state at the prior read (`Movies.Get`) and `dbUpd` the state at the
conditional write (`Movies.Update`) — they differ exactly when a
concurrent writer commits in between.  `body = none` models a JSON
read error.  Returns the response and the table after the write. -/
def updateMovieHandler (dbGet dbUpd : MoviesTable) (nowYear : Int)
    (idParam : Option Int) (body : Option MovieUpdateInput) :
    MovieHandlerResponse × MoviesTable :=
  match readIDParam idParam with
  | Except.error _ => (MovieHandlerResponse.notFoundResp, dbUpd)
  | Except.ok id =>
    match MovieModel.Get dbGet id with
    | Except.error DataErr.recordNotFound => (MovieHandlerResponse.notFoundResp, dbUpd)
    | Except.error _ => (MovieHandlerResponse.serverErrorResp, dbUpd)
    | Except.ok movie0 =>
      match body with
      | none => (MovieHandlerResponse.badRequestResp, dbUpd)
      | some input =>
        let movie : Movie :=
          { movie0 with
            title := input.title.getD movie0.title
            year := input.year.getD movie0.year
            runtime := input.runtime.getD movie0.runtime
            genres := input.genres.getD movie0.genres }
        if (ValidateMovie Validator.new nowYear movie).Valid then
          match MovieModel.Update dbUpd movie with
          | (db', Except.ok m') => (MovieHandlerResponse.okMovie m', db')
          | (_, Except.error DataErr.editConflict) =>
            (MovieHandlerResponse.editConflictResp, dbUpd)
          | (_, Except.error _) => (MovieHandlerResponse.serverErrorResp, dbUpd)
        else (MovieHandlerResponse.failedValidationResp, dbUpd)

/-! ## Rate limiting (src/unnamed/part_004, `rateLimit`, lines 35-85)

`golang.org/x/time/rate` token bucket: `rate.NewLimiter(r, b)` starts
with a full bucket of `b` tokens; `Allow()` first refills by elapsed
time × rate (capped at the burst), then consumes one token if at least
one is available.  Wall-clock instants are whole seconds (`Int`, as
Go's integer `time.Time` ticks); the token count refills fractionally
and is a `Rat`. -/

structure RateLimiter where
  limit : Rat
  burst : Nat
  tokens : Rat
  last : Int
deriving Repr, DecidableEq

/-- `rate.NewLimiter(rate.Limit(rps), burst)` created at time `now`:
a full bucket. -/
def RateLimiter.mk' (rps : Rat) (burst : Nat) (now : Int) : RateLimiter :=
  { limit := rps, burst := burst, tokens := (burst : Rat), last := now }

/-- `Limiter.Allow()` at time `now`. -/
def RateLimiter.allow (l : RateLimiter) (now : Int) : Bool × RateLimiter :=
  let t := min (l.tokens + ((now - l.last : Int) : Rat) * l.limit) ((l.burst : Rat))
  if 1 ≤ t then (true, { l with tokens := t - 1, last := now })
  else (false, { l with tokens := t, last := now })

/-- The per-client record of the `clients` map (part_004 lines 38-41).
A freshly inserted entry has the Go zero `lastSeen` (time 0); line 74
then overwrites it with `now`. -/
structure ClientEntry where
  limiter : RateLimiter
  lastSeen : Int
deriving Repr, DecidableEq

/-- The `clients` map, keyed by client IP (unique keys, as for any
map). -/
abbrev ClientRegistry := List (String × ClientEntry)

/-- Map lookup `clients[ip]`. -/
def lookupClient (clients : ClientRegistry) (ip : String) : Option ClientEntry :=
  List.lookup ip clients

/-- Map store `clients[ip] = e`: replace the entry for `ip`, or append
a new one. -/
def storeClient (clients : ClientRegistry) (ip : String) (e : ClientEntry) :
    ClientRegistry :=
  match clients with
  | [] => [(ip, e)]
  | (k, v) :: rest =>
    if k == ip then (ip, e) :: rest else (k, v) :: storeClient rest ip e

/-- The externally supplied limiter configuration (§6): enabled toggle,
sustained rate `rps`, burst capacity. -/
structure LimiterConfig where
  enabled : Bool
  rps : Rat
  burst : Nat
deriving Repr, DecidableEq

/-- One pass of the `rateLimit` request path (part_004 lines 63-84):
disabled ⇒ always admitted, no state; otherwise create the entry if
absent (fresh full bucket), refresh `lastSeen` to `now`, then consume
via `Allow()` — denial refreshes `lastSeen`/refill state but consumes
nothing. -/
def rateLimitStep (cfg : LimiterConfig) (clients : ClientRegistry)
    (ip : String) (now : Int) : Bool × ClientRegistry :=
  if cfg.enabled then
    let entry :=
      match lookupClient clients ip with
      | some e => e
      | none => { limiter := RateLimiter.mk' cfg.rps cfg.burst now, lastSeen := 0 }
    let entry := { entry with lastSeen := now }
    let r := entry.limiter.allow now
    (r.1, storeClient clients ip { entry with limiter := r.2 })
  else (true, clients)

/-- `n` consecutive requests from the same `ip`, all at the same
instant `now` (no intervening delay). -/
def rateLimitRun (cfg : LimiterConfig) (clients : ClientRegistry)
    (ip : String) (now : Int) : Nat → List Bool × ClientRegistry
  | 0 => ([], clients)
  | Nat.succ n =>
    let r := rateLimitStep cfg clients ip now
    let rest := rateLimitRun cfg r.2 ip now n
    (r.1 :: rest.1, rest.2)

/-- Decisions of `n` consecutive `Allow()` calls on one limiter, all at
the same instant. -/
def RateLimiter.allowRun (l : RateLimiter) (now : Int) : Nat → List Bool
  | 0 => []
  | Nat.succ n =>
    let r := l.allow now
    r.1 :: RateLimiter.allowRun r.2 now n

/-- The eviction threshold of the background sweep: 3 minutes. -/
def staleAfter : Int := 180

/-- One tick of the background sweep goroutine (part_004 lines 49-61):
delete every entry whose `lastSeen` is more than 3 minutes in the
past; keep the rest untouched. -/
def sweepClients (clients : ClientRegistry) (now : Int) : ClientRegistry :=
  clients.filter (fun ce => !(decide (staleAfter < now - ce.2.lastSeen)))

/-! ## Background tasks (src/unnamed/part_003, `background`,
lines 149-165) -/

/-- How the function handed to `background` terminates. -/
inductive TaskOutcome where
  | normal
  | panicked (msg : String)
deriving Repr, DecidableEq

/-- Observable events of one spawned background task, in program
order. -/
inductive BgEvent where
  | wgAdd               -- app.wg.Add(1) at spawn
  | runFn               -- fn() starts
  | logError (msg : String)  -- the recover branch logging a caught panic
  | wgDone              -- the deferred app.wg.Done()
deriving Repr, DecidableEq

/-- The event trace of `background(fn)` for a task ending in `outcome`:
the counter is incremented at spawn; `fn` runs; a panic is caught by
the inner deferred `recover` and logged; the outer deferred `wg.Done()`
then runs in every case. -/
def backgroundTrace (outcome : TaskOutcome) : List BgEvent :=
  [BgEvent.wgAdd, BgEvent.runFn] ++
  (match outcome with
   | TaskOutcome.normal => []
   | TaskOutcome.panicked msg => [BgEvent.logError msg]) ++
  [BgEvent.wgDone]

/-- Net effect of one event on the wait-group counter. -/
def BgEvent.wgDelta : BgEvent → Int
  | BgEvent.wgAdd => 1
  | BgEvent.wgDone => -1
  | _ => 0

/-! ## Graceful shutdown (src/cmd/api/server.go, `serve`, lines 14-91)

`shutdownError` is an unbuffered channel; `serve`'s main goroutine
receives from it exactly once (line 80) and returns what it received.
The shutdown goroutine's sends therefore reach `serve` in program
order, and only the first one is ever received.  The trace records the
goroutine's channel sends and its `app.wg.Wait()` (the background-task
drain) in program order. -/

inductive ServeEvent where
  | send (e : Option String)   -- shutdownError <- …
  | drainWait                  -- app.wg.Wait() returns
deriving Repr, DecidableEq

/-- Program-order trace of the shutdown goroutine (server.go lines
29-64), parameterised by the result of `srv.Shutdown(ctx)`
(`some e` = the listener stop failed with error `e`): a failed stop
sends the error immediately (lines 49-52); then the goroutine waits
out the background tasks (line 60) and sends nil (line 63). -/
def shutdownGoroutineTrace (shutdownRes : Option String) : List ServeEvent :=
  (match shutdownRes with
   | some e => [ServeEvent.send (some e)]
   | none => []) ++ [ServeEvent.drainWait, ServeEvent.send none]

/-- The payload of the first send in a trace — what `serve`'s single
receive (line 80) obtains. -/
def firstSend : List ServeEvent → Option (Option String)
  | [] => none
  | ServeEvent.send e :: _ => some e
  | _ :: rest => firstSend rest

/-- What `serve` returns after a graceful-listener-close
(`http.ErrServerClosed`) path, as a function of the shutdown
goroutine's `srv.Shutdown` result: the first channel payload received
(lines 80-83; `some e` = `serve` fails with `e`, `none` = clean
stop). -/
def serveReturn (shutdownRes : Option String) : Option String :=
  (firstSend (shutdownGoroutineTrace shutdownRes)).getD none

/-- Whether the drain (`wg.Wait`) completes strictly before the first
channel send in a trace — i.e. whether whatever `serve` receives was
only sent after the background-task drain finished. -/
def drainBeforeFirstSend : List ServeEvent → Bool
  | [] => false
  | ServeEvent.drainWait :: _ => true
  | ServeEvent.send _ :: _ => false

/-! ## Concrete values used by witnesses -/

/-- A 26-character token drawn entirely from outside the base32
alphabet. -/
def bangToken : String := "!!!!!!!!!!!!!!!!!!!!!!!!!!"

/-- A 26-character token drawn from the base32 alphabet. -/
def goodToken : String := "ABCDEFGHIJKLMNOPQRSTUVWXYZ"

/-- An authenticated (non-anonymous) but not-activated user. -/
def inactiveUser : UserPtr :=
  { addr := 2
    val := { id := 7, createdAt := 0, name := "jo", email := "jo@example.com"
             passwordHash := [1], activated := false, version := 1 } }

/-- An allocation distinct from the sentinel whose fields all equal the
sentinel's zero values. -/
def zeroFieldUser : UserPtr := { addr := 1, val := AnonymousUser.val }

/-- A business handler that just reports success. -/
def handledNext : Handler := fun _ => (GateResponse.handled, 0)

/-- A stored movie row at version 3. -/
def movieRow1 : Movie :=
  { id := 1, createdAt := 0, title := "Alien", year := 1979, runtime := 117
    genres := ["horror"], version := 3 }

/-- A caller-side movie update carrying the matching version 3. -/
def movieCallerV3 : Movie := { movieRow1 with title := "Aliens" }

/-- A caller-side movie update carrying a stale version 2. -/
def movieCallerV2 : Movie := { movieRow1 with title := "Aliens", version := 2 }

/-- A stored user row at version 5. -/
def userRow1 : UserVal :=
  { id := 7, createdAt := 0, name := "jo", email := "jo@example.com"
    passwordHash := [1], activated := true, version := 5 }

/-- A caller-side user update carrying the matching version 5. -/
def userCallerV5 : UserVal := { userRow1 with name := "joanna" }

/-- A caller-side user update carrying a stale version 4. -/
def userCallerV4 : UserVal := { userRow1 with name := "joanna", version := 4 }

end Cinevault

namespace Cinevault

/-! ## Theorems -/

/-- C9: resolving an empty (absent) Authorization header always yields
the anonymous principal with no error — the request proceeds to the
next stage with `AnonymousUser` in context and the credential-lookup
collaborator is never contacted, whatever that collaborator would
answer. -/
theorem C9_empty_header_yields_anonymous :
    ∀ getForToken : String → String → Except DataErr UserPtr,
      authenticate getForToken "" = (AuthResult.proceed AnonymousUser, 0) := by
  intro gf
  rfl

/-- C1 counterexample: with a concrete listener-close error, `serve`
returns that error (it is captured), but the background-task drain has
not completed before the error is sent and received — the shutdown
goroutine sends the error on the unbuffered channel *before* calling
`wg.Wait()`, so the drain wait is short-circuited, contradicting the
claim that the error surfaces only after drain completes. -/
theorem C1_counterexample :
    serveReturn (some "listener close failed") = some "listener close failed" ∧
    drainBeforeFirstSend (shutdownGoroutineTrace (some "listener close failed")) = false := by
  exact ⟨rfl, rfl⟩

/-- C1 (amended): any error from stopping the listener is captured and
surfaces as the process's own failure, but it surfaces *before* the
drain completes: the error send precedes `wg.Wait()` in the shutdown
goroutine, so a failed listener stop short-circuits the drain wait.
Only the no-error completion signal is sent after the drain. -/
theorem C1_listener_error_precedes_drain :
    ∀ e : String,
      serveReturn (some e) = some e ∧
      drainBeforeFirstSend (shutdownGoroutineTrace (some e)) = false ∧
      serveReturn none = none ∧
      drainBeforeFirstSend (shutdownGoroutineTrace none) = true := by
  intro e
  exact ⟨rfl, rfl, rfl, rfl⟩

/-- C8: for every background-task outcome — normal completion or a
panic — the spawned task's trace increments the wait-group once, ends
with exactly one deregistration (`wgDone`, last event, after any panic
logging), nets the counter to zero, and a panic is logged as an error
before deregistration. -/
theorem C8_panic_still_deregisters :
    ∀ outcome : TaskOutcome,
      ((backgroundTrace outcome).map BgEvent.wgDelta).sum = 0 ∧
      (backgroundTrace outcome).count BgEvent.wgDone = 1 ∧
      (backgroundTrace outcome).getLast? = some BgEvent.wgDone ∧
      ∀ msg, outcome = TaskOutcome.panicked msg →
        BgEvent.logError msg ∈ backgroundTrace outcome := by
  intro outcome
  cases outcome with
  | normal =>
    refine ⟨by decide, by decide, by decide, ?_⟩
    intro msg h
    cases h
  | panicked m =>
    refine ⟨?_, ?_, ?_, ?_⟩
    · simp [backgroundTrace, BgEvent.wgDelta]
    · simp [backgroundTrace, List.count_cons, List.count_nil]
    · simp [backgroundTrace]
    · intro msg h
      cases h
      simp [backgroundTrace]

/-- C8 witness: the guarantees instantiated at a task that panics with
a concrete message. -/
theorem C8_panic_still_deregisters_witness :
    ((backgroundTrace (TaskOutcome.panicked "task blew up")).map BgEvent.wgDelta).sum = 0 ∧
    (backgroundTrace (TaskOutcome.panicked "task blew up")).count BgEvent.wgDone = 1 ∧
    BgEvent.logError "task blew up" ∈ backgroundTrace (TaskOutcome.panicked "task blew up") :=
  ⟨(C8_panic_still_deregisters (TaskOutcome.panicked "task blew up")).1,
   (C8_panic_still_deregisters (TaskOutcome.panicked "task blew up")).2.1,
   (C8_panic_still_deregisters (TaskOutcome.panicked "task blew up")).2.2.2 "task blew up" rfl⟩

/-- C10: the anonymous check is reference identity.  The sentinel
itself is anonymous; any pointer with a different address — even one
whose pointed-to fields all equal the sentinel's zero values — is not
anonymous, and `requireAuthenticatedUser` passes it straight to the
wrapped handler. -/
theorem C10_is_anonymous_reference_identity :
    ∀ (next : Handler) (u : UserPtr),
      AnonymousUser.IsAnonymous = true ∧
      (u.addr ≠ AnonymousUser.addr →
        u.IsAnonymous = false ∧ requireAuthenticatedUser next u = next u) := by
  intro next u
  refine ⟨by decide, fun h => ?_⟩
  have hu : u.IsAnonymous = false := by
    simp [UserPtr.IsAnonymous]
    exact h
  exact ⟨hu, by simp [requireAuthenticatedUser, hu]⟩

/-- C10 witness: a user at address 1 whose fields equal the sentinel's
zero values is treated as authenticated. -/
theorem C10_is_anonymous_reference_identity_witness :
    zeroFieldUser.val = AnonymousUser.val ∧
    zeroFieldUser.IsAnonymous = false ∧
    requireAuthenticatedUser handledNext zeroFieldUser = handledNext zeroFieldUser :=
  ⟨rfl,
   ((C10_is_anonymous_reference_identity handledNext zeroFieldUser).2 (by decide)).1,
   ((C10_is_anonymous_reference_identity handledNext zeroFieldUser).2 (by decide)).2⟩

/-- C4: the gates evaluate in the fixed order authentication,
activation, permission.  An anonymous principal gets
`authenticationRequired` from the permission-protected chain (whatever
the permission collaborator and wrapped handler would do) with zero
permission-lookup calls; an authenticated but inactive principal gets
`inactiveAccount`, again with zero permission-lookup calls; in both
cases the wrapped handler is never invoked (the result does not depend
on `next`).  A permitted-code miss also never reaches the handler. -/
theorem C4_gate_order :
    ∀ (code : String) (gf : Int → Except DataErr Permissions) (next : Handler) (u : UserPtr),
      (u.IsAnonymous = true →
        requirePermission code gf next u = (GateResponse.authenticationRequired, 0) ∧
        requireActivatedUser next u = (GateResponse.authenticationRequired, 0)) ∧
      (u.IsAnonymous = false → u.val.activated = false →
        requirePermission code gf next u = (GateResponse.inactiveAccount, 0)) ∧
      (∀ perms : Permissions, u.IsAnonymous = false → u.val.activated = true →
        gf u.val.id = Except.ok perms → Permissions.Include perms code = false →
        requirePermission code gf next u = (GateResponse.notPermitted, 1)) := by
  intro code gf next u
  refine ⟨fun h => ⟨?_, ?_⟩, fun h hact => ?_, fun perms h hact hperm hinc => ?_⟩
  · simp [requirePermission, requireActivatedUser, requireAuthenticatedUser, h]
  · simp [requireActivatedUser, requireAuthenticatedUser, h]
  · simp [requirePermission, requireActivatedUser, requireAuthenticatedUser, h, hact]
  · simp [requirePermission, requireActivatedUser, requireAuthenticatedUser, h, hact,
      hperm, hinc]

/-- C4 witness: the three gate failures at concrete inputs — the
anonymous sentinel, a concrete inactive user, and a concrete activated
user lacking the required code. -/
theorem C4_gate_order_witness :
    requirePermission "movies:write" (fun _ => Except.ok (["movies:read"] : Permissions))
        handledNext AnonymousUser = (GateResponse.authenticationRequired, 0) ∧
    requirePermission "movies:write" (fun _ => Except.ok (["movies:read"] : Permissions))
        handledNext inactiveUser = (GateResponse.inactiveAccount, 0) :=
  ⟨((C4_gate_order "movies:write" (fun _ => Except.ok (["movies:read"] : Permissions))
      handledNext AnonymousUser).1 (by decide)).1,
   (C4_gate_order "movies:write" (fun _ => Except.ok (["movies:read"] : Permissions))
      handledNext inactiveUser).2.1 (by decide) (by decide)⟩

/-- Helper: the shape validator accepts exactly the non-empty
26-byte tokens — no character-set condition is involved. -/
theorem validateTokenPlaintext_valid_iff (t : String) :
    (ValidateTokenPlaintext Validator.new t).Valid = true ↔
      (t ≠ "" ∧ t.utf8ByteSize = 26) := by
  unfold ValidateTokenPlaintext Validator.new Validator.Check Validator.AddError Validator.Valid
  cases h1 : (t != "") <;> cases h2 : (t.utf8ByteSize == 26) <;>
    simp_all

/-- C3 counterexample: a 26-character token consisting entirely of
`!` characters — none of them in the base32 alphabet used to generate
tokens — is *not* rejected by the shape gate: `authenticate` proceeds
to contact the credential-lookup collaborator with it (one lookup
call), falsifying the claim that the validator requires every
character to come from the restricted alphabet. -/
theorem C3_counterexample :
    authenticateDecision ("Bearer " ++ bangToken) = AuthDecision.lookupToken bangToken ∧
    bangToken.utf8ByteSize = 26 ∧
    bangToken.toList.all (fun c => decide (c ∈ base32StdAlphabet)) = false ∧
    (authenticate (fun _ _ => Except.error DataErr.recordNotFound)
        ("Bearer " ++ bangToken)).2 = 1 := by
  refine ⟨by decide, by decide, by decide, by decide⟩

/-- C3 (amended): for a `Bearer <t>` header, `t` is rejected with the
invalid-authentication-token response, without any credential-lookup
call, unless it passes the plaintext-token shape validator — but that
validator checks only that `t` is non-empty and exactly 26 bytes long;
membership in the base32 alphabet is not checked. -/
theorem C3_shape_gate_checks_length_only :
    (∀ hdr t : String, authenticateDecision hdr = AuthDecision.lookupToken t →
      (ValidateTokenPlaintext Validator.new t).Valid = true) ∧
    (∀ t : String, (ValidateTokenPlaintext Validator.new t).Valid = true ↔
      (t ≠ "" ∧ t.utf8ByteSize = 26)) ∧
    (∀ (gf : String → String → Except DataErr UserPtr) (hdr : String),
      authenticateDecision hdr = AuthDecision.invalidToken →
      authenticate gf hdr = (AuthResult.invalidAuthenticationToken, 0)) := by
  refine ⟨?_, validateTokenPlaintext_valid_iff, ?_⟩
  · intro hdr t h
    unfold authenticateDecision at h
    split at h
    · cases h
    · split at h
      · split at h
        · split at h
          · cases h
            assumption
          · cases h
        · cases h
      · cases h
  · intro gf hdr h
    unfold authenticate
    rw [h]

/-- C3 amended-claim witness: a well-formed 26-byte token reaches the
lookup stage having passed the validator; a 25-byte token is turned
away with zero lookup calls. -/
theorem C3_shape_gate_checks_length_only_witness :
    (ValidateTokenPlaintext Validator.new goodToken).Valid = true ∧
    (goodToken ≠ "" ∧ goodToken.utf8ByteSize = 26) ∧
    authenticate (fun _ _ => Except.error DataErr.recordNotFound)
        "Bearer ABCDEFGHIJKLMNOPQRSTUVWXY" = (AuthResult.invalidAuthenticationToken, 0) :=
  ⟨C3_shape_gate_checks_length_only.1 ("Bearer " ++ goodToken) goodToken (by decide),
   (C3_shape_gate_checks_length_only.2.1 goodToken).mp
     (C3_shape_gate_checks_length_only.1 ("Bearer " ++ goodToken) goodToken (by decide)),
   C3_shape_gate_checks_length_only.2.2
     (fun _ _ => Except.error DataErr.recordNotFound)
     "Bearer ABCDEFGHIJKLMNOPQRSTUVWXY" (by decide)⟩

/-! ## Keyed-table lemmas (unique primary key) -/

/-- Helper: a list none of whose elements matches the key predicate has
no `find?` hit. -/
theorem find?_key_eq_none {α : Type} (k : α → Int) (K : Int) (l : List α)
    (h : ∀ x ∈ l, k x ≠ K) : l.find? (fun r => k r == K) = none := by
  rw [List.find?_eq_none]
  intro x hx
  simp [h x hx]

/-- Helper: with a unique key column, the rows matching both the key
and a further predicate `p` are exactly the key's row when `p` holds of
it, and nothing otherwise. -/
theorem filter_key_and_of_find? {α : Type} (k : α → Int) (p : α → Bool) (K : Int) :
    ∀ (db : List α) (rec : α),
      (db.map k).Nodup →
      db.find? (fun r => k r == K) = some rec →
      db.filter (fun r => (k r == K) && p r) = if p rec then [rec] else [] := by
  intro db
  induction db with
  | nil =>
    intro rec _ h
    simp at h
  | cons a rest ih =>
    intro rec hnd hf
    rw [List.map_cons, List.nodup_cons] at hnd
    obtain ⟨hka, hndr⟩ := hnd
    rw [List.find?_cons] at hf
    by_cases hk : (k a == K) = true
    · rw [hk] at hf
      have hrec : a = rec := Option.some.inj hf
      subst hrec
      have hKa : k a = K := beq_iff_eq.mp hk
      have hrest : ∀ x ∈ rest, ¬ (((k x == K) && p x) = true) := by
        intro x hx hcontra
        have hxK : k x = K := beq_iff_eq.mp (Bool.and_elim_left hcontra)
        exact hka (by rw [← hKa] at hxK; exact hxK ▸ List.mem_map_of_mem k hx)
      rw [List.filter_cons]
      rw [List.filter_eq_nil_iff.mpr hrest]
      cases hpa : p a <;> simp [hk, hpa]
    · have hk' : (k a == K) = false := eq_false_of_ne_true hk
      rw [hk'] at hf
      rw [List.filter_cons]
      simp only [hk', Bool.false_and, Bool.false_eq_true, if_false]
      exact ih rec hndr hf

/-- Helper: after the keyed conditional rewrite, the key's row is the
rewritten one (when `p` held of it) and every other row is untouched;
`find?` on the new table returns accordingly. -/
theorem find?_map_key_update {α : Type} (k : α → Int) (p : α → Bool) (f : α → α)
    (K : Int) (hkf : ∀ r, k (f r) = k r) :
    ∀ (db : List α) (rec : α),
      (db.map k).Nodup →
      db.find? (fun r => k r == K) = some rec →
      (db.map (fun x => if (k x == K) && p x then f x else x)).find?
          (fun r => k r == K) = some (if p rec then f rec else rec) := by
  intro db
  induction db with
  | nil =>
    intro rec _ h
    simp at h
  | cons a rest ih =>
    intro rec hnd hf
    rw [List.map_cons, List.nodup_cons] at hnd
    obtain ⟨hka, hndr⟩ := hnd
    rw [List.find?_cons] at hf
    by_cases hk : (k a == K) = true
    · rw [hk] at hf
      have hrec : a = rec := Option.some.inj hf
      subst hrec
      rw [List.map_cons]
      cases hpa : p a with
      | false =>
        simp [List.find?_cons, hk, hpa]
      | true =>
        simp [List.find?_cons, hk, hpa, hkf]
    · have hk' : (k a == K) = false := eq_false_of_ne_true hk
      rw [hk'] at hf
      rw [List.map_cons]
      have hih := ih rec hndr hf
      simp only [hk', Bool.false_and, Bool.false_eq_true, if_false]
      rw [List.find?_cons, hk']
      exact hih

/-! ## Conditional-update specification lemmas -/

/-- Helper: a movie update whose caller version matches the stored row
succeeds, returns version+1, and rewrites exactly the stored row. -/
theorem movieUpdate_success (db : MoviesTable) (m rec : Movie)
    (hnd : (db.map (fun r => r.id)).Nodup)
    (hf : db.find? (fun r => r.id == m.id) = some rec)
    (hv : rec.version = m.version) :
    (MovieModel.Update db m).2 = Except.ok { m with version := rec.version + 1 } ∧
    (MovieModel.Update db m).1.find? (fun r => r.id == m.id) =
      some (movieRowAfterUpdate m rec) := by
  have hp : (rec.version == m.version) = true := beq_iff_eq.mpr hv
  have hfil : db.filter (fun r => r.id == m.id && r.version == m.version) = [rec] := by
    have h := filter_key_and_of_find? (fun r : Movie => r.id)
      (fun r : Movie => r.version == m.version) m.id db rec hnd hf
    simp only [hp] at h
    simpa using h
  have hmap := find?_map_key_update (fun r : Movie => r.id)
    (fun r : Movie => r.version == m.version)
    (movieRowAfterUpdate m) m.id (fun r => rfl) db rec hnd hf
  simp only [hp] at hmap
  constructor
  · simp only [MovieModel.Update, hfil]
  · simp only [MovieModel.Update, hfil]
    simpa using hmap

/-- Helper: a movie update whose caller version differs from the stored
row's version matches zero rows and yields `ErrEditConflict`, leaving
the table unchanged. -/
theorem movieUpdate_conflict (db : MoviesTable) (m rec : Movie)
    (hnd : (db.map (fun r => r.id)).Nodup)
    (hf : db.find? (fun r => r.id == m.id) = some rec)
    (hv : rec.version ≠ m.version) :
    MovieModel.Update db m = (db, Except.error DataErr.editConflict) := by
  have hp : (rec.version == m.version) = false := beq_eq_false_iff_ne.mpr hv
  have hfil : db.filter (fun r => r.id == m.id && r.version == m.version) = [] := by
    have h := filter_key_and_of_find? (fun r : Movie => r.id)
      (fun r : Movie => r.version == m.version) m.id db rec hnd hf
    simp only [hp] at h
    simpa using h
  simp only [MovieModel.Update, hfil]

/-- Helper: the user-row analogue of `movieUpdate_success`, under the
additional hypothesis that the new email collides with no other row. -/
theorem userUpdate_success (db : UsersTable) (u rec : UserVal)
    (hnd : (db.map (fun r => r.id)).Nodup)
    (hf : db.find? (fun r => r.id == u.id) = some rec)
    (hv : rec.version = u.version)
    (hdup : db.any (fun x => x.id != u.id && x.email == u.email) = false) :
    (UserModel.Update db u).2 = Except.ok { u with version := rec.version + 1 } ∧
    (UserModel.Update db u).1.find? (fun r => r.id == u.id) =
      some (userRowAfterUpdate u rec) := by
  have hp : (rec.version == u.version) = true := beq_iff_eq.mpr hv
  have hfil : db.filter (fun r => r.id == u.id && r.version == u.version) = [rec] := by
    have h := filter_key_and_of_find? (fun r : UserVal => r.id)
      (fun r : UserVal => r.version == u.version) u.id db rec hnd hf
    simp only [hp] at h
    simpa using h
  have hmap := find?_map_key_update (fun r : UserVal => r.id)
    (fun r : UserVal => r.version == u.version)
    (userRowAfterUpdate u) u.id (fun r => rfl) db rec hnd hf
  simp only [hp] at hmap
  constructor
  · simp only [UserModel.Update, hfil, hdup]
    simp
  · simp only [UserModel.Update, hfil, hdup]
    simp only [Bool.false_eq_true, if_false]
    simpa using hmap

/-- Helper: the user-row analogue of `movieUpdate_conflict`. -/
theorem userUpdate_conflict (db : UsersTable) (u rec : UserVal)
    (hnd : (db.map (fun r => r.id)).Nodup)
    (hf : db.find? (fun r => r.id == u.id) = some rec)
    (hv : rec.version ≠ u.version) :
    UserModel.Update db u = (db, Except.error DataErr.editConflict) := by
  have hp : (rec.version == u.version) = false := beq_eq_false_iff_ne.mpr hv
  have hfil : db.filter (fun r => r.id == u.id && r.version == u.version) = [] := by
    have h := filter_key_and_of_find? (fun r : UserVal => r.id)
      (fun r : UserVal => r.version == u.version) u.id db rec hnd hf
    simp only [hp] at h
    simpa using h
  simp only [UserModel.Update, hfil]

/-- C2: for both versioned record kinds, a successful conditional
update increments the stored version by exactly one and returns that
same new version to the caller (so the caller's in-memory copy matches
the stored row); an update whose caller-supplied version differs from
the stored version at write time is rejected with the edit-conflict
error and leaves the table unchanged. -/
theorem C2_version_increment_contract :
    (∀ (db : MoviesTable) (m rec : Movie),
      (db.map (fun r => r.id)).Nodup →
      db.find? (fun r => r.id == m.id) = some rec →
      ((rec.version = m.version →
        (MovieModel.Update db m).2 = Except.ok { m with version := rec.version + 1 } ∧
        (MovieModel.Update db m).1.find? (fun r => r.id == m.id) =
          some (movieRowAfterUpdate m rec) ∧
        (movieRowAfterUpdate m rec).version = rec.version + 1) ∧
       (rec.version ≠ m.version →
        MovieModel.Update db m = (db, Except.error DataErr.editConflict)))) ∧
    (∀ (db : UsersTable) (u rec : UserVal),
      (db.map (fun r => r.id)).Nodup →
      db.find? (fun r => r.id == u.id) = some rec →
      ((rec.version = u.version →
        db.any (fun x => x.id != u.id && x.email == u.email) = false →
        (UserModel.Update db u).2 = Except.ok { u with version := rec.version + 1 } ∧
        (UserModel.Update db u).1.find? (fun r => r.id == u.id) =
          some (userRowAfterUpdate u rec) ∧
        (userRowAfterUpdate u rec).version = rec.version + 1) ∧
       (rec.version ≠ u.version →
        UserModel.Update db u = (db, Except.error DataErr.editConflict)))) := by
  constructor
  · intro db m rec hnd hf
    refine ⟨fun hv => ?_, fun hv => movieUpdate_conflict db m rec hnd hf hv⟩
    obtain ⟨h1, h2⟩ := movieUpdate_success db m rec hnd hf hv
    exact ⟨h1, h2, rfl⟩
  · intro db u rec hnd hf
    refine ⟨fun hv hdup => ?_, fun hv => userUpdate_conflict db u rec hnd hf hv⟩
    obtain ⟨h1, h2⟩ := userUpdate_success db u rec hnd hf hv hdup
    exact ⟨h1, h2, rfl⟩

/-- C2 witness: the contract at a one-row movie table and a one-row
user table — a matching version (3 resp. 5) succeeds and moves stored
and returned version to 4 resp. 6; a stale caller version is rejected
with the table unchanged. -/
theorem C2_version_increment_contract_witness :
    ((MovieModel.Update [movieRow1] movieCallerV3).2 =
      Except.ok { movieCallerV3 with version := movieRow1.version + 1 } ∧
     (MovieModel.Update [movieRow1] movieCallerV3).1.find?
        (fun r => r.id == movieCallerV3.id) =
      some (movieRowAfterUpdate movieCallerV3 movieRow1) ∧
     (movieRowAfterUpdate movieCallerV3 movieRow1).version = movieRow1.version + 1) ∧
    MovieModel.Update [movieRow1] movieCallerV2 =
      ([movieRow1], Except.error DataErr.editConflict) ∧
    ((UserModel.Update [userRow1] userCallerV5).2 =
      Except.ok { userCallerV5 with version := userRow1.version + 1 } ∧
     (UserModel.Update [userRow1] userCallerV5).1.find?
        (fun r => r.id == userCallerV5.id) =
      some (userRowAfterUpdate userCallerV5 userRow1) ∧
     (userRowAfterUpdate userCallerV5 userRow1).version = userRow1.version + 1) ∧
    UserModel.Update [userRow1] userCallerV4 =
      ([userRow1], Except.error DataErr.editConflict) :=
  ⟨((C2_version_increment_contract.1 [movieRow1] movieCallerV3 movieRow1
      (by decide) (by decide)).1 (by decide)),
   ((C2_version_increment_contract.1 [movieRow1] movieCallerV2 movieRow1
      (by decide) (by decide)).2 (by decide)),
   ((C2_version_increment_contract.2 [userRow1] userCallerV5 userRow1
      (by decide) (by decide)).1 (by decide) (by decide)),
   ((C2_version_increment_contract.2 [userRow1] userCallerV4 userRow1
      (by decide) (by decide)).2 (by decide))⟩

/-- C5: the two zero-row outcomes of the conditional movie update are
distinguished by a prior read.  When the id does not exist, the update
handler answers 404 out of the prior `Movies.Get` without performing
the conditional write (the table is handed back untouched); when the
id exists but its stored version differs from the caller-supplied one,
`MovieModel.Update` itself reports the edit conflict. -/
theorem C5_notfound_vs_conflict :
    (∀ (dbGet dbUpd : MoviesTable) (nowYear id : Int)
        (body : Option MovieUpdateInput),
      dbGet.find? (fun r => r.id == id) = none →
      updateMovieHandler dbGet dbUpd nowYear (some id) body =
        (MovieHandlerResponse.notFoundResp, dbUpd)) ∧
    (∀ (db : MoviesTable) (m rec : Movie),
      (db.map (fun r => r.id)).Nodup →
      db.find? (fun r => r.id == m.id) = some rec →
      rec.version ≠ m.version →
      MovieModel.Update db m = (db, Except.error DataErr.editConflict)) := by
  constructor
  · intro dbGet dbUpd nowYear id body hnone
    by_cases hid : id < 1
    · simp [updateMovieHandler, readIDParam, hid]
    · simp [updateMovieHandler, readIDParam, hid, MovieModel.Get, hnone]
  · intro db m rec hnd hf hv
    exact movieUpdate_conflict db m rec hnd hf hv

/-- C5 witness: with the stored table holding only id 1, an update
addressed to id 2 yields 404 from the prior read with the write-side
table untouched, and an update to id 1 carrying stale version 2 gets
the edit conflict. -/
theorem C5_notfound_vs_conflict_witness :
    updateMovieHandler [movieRow1] [movieRow1] 2024 (some 2)
        (some { title := some "Aliens", year := none, runtime := none, genres := none }) =
      (MovieHandlerResponse.notFoundResp, [movieRow1]) ∧
    MovieModel.Update [movieRow1] movieCallerV2 =
      ([movieRow1], Except.error DataErr.editConflict) :=
  ⟨C5_notfound_vs_conflict.1 [movieRow1] [movieRow1] 2024 2
      (some { title := some "Aliens", year := none, runtime := none, genres := none })
      (by decide),
   C5_notfound_vs_conflict.2 [movieRow1] movieCallerV2 movieRow1
      (by decide) (by decide) (by decide)⟩

/-! ## Rate-limiter lemmas -/

/-- Helper: with a whole number `j ≤ B` of tokens and no elapsed time,
`n` consecutive `Allow()` calls admit exactly the first `j` requests
and deny the rest. -/
theorem allowRun_integral (R : Rat) (B : Nat) (now : Int) :
    ∀ (n j : Nat), j ≤ B →
      RateLimiter.allowRun ⟨R, B, (j : Rat), now⟩ now n =
        List.replicate (min n j) true ++ List.replicate (n - j) false := by
  intro n
  induction n with
  | zero =>
    intro j hj
    simp [RateLimiter.allowRun]
  | succ n ih =>
    intro j hj
    have hmin : min ((j : Rat) + ((now - now : Int) : Rat) * R) ((B : Nat) : Rat)
        = (j : Rat) := by
      have h0 : ((j : Rat) + ((now - now : Int) : Rat) * R) = (j : Rat) := by
        simp
      rw [h0]
      exact min_eq_left (by exact_mod_cast hj)
    simp only [RateLimiter.allowRun, RateLimiter.allow]
    rw [hmin]
    cases j with
    | zero =>
      rw [if_neg (by norm_num : ¬ (1 : Rat) ≤ ((0 : Nat) : Rat))]
      rw [ih 0 (Nat.zero_le B)]
      simp [List.replicate_succ]
    | succ k =>
      rw [if_pos (by exact_mod_cast Nat.succ_le_succ (Nat.zero_le k) :
            (1 : Rat) ≤ ((Nat.succ k : Nat) : Rat))]
      have hc : ((Nat.succ k : Nat) : Rat) - 1 = ((k : Nat) : Rat) := by
        push_cast
        ring
      rw [hc, ih k (Nat.le_of_succ_le hj)]
      simp [Nat.succ_min_succ, Nat.succ_sub_succ, List.replicate_succ]

/-- Helper: storing an entry makes it the one the next lookup finds. -/
theorem lookupClient_storeClient_self :
    ∀ (clients : ClientRegistry) (ip : String) (e : ClientEntry),
      lookupClient (storeClient clients ip e) ip = some e := by
  intro clients ip e
  induction clients with
  | nil =>
    simp [storeClient, lookupClient, List.lookup]
  | cons a rest ih =>
    obtain ⟨k, v⟩ := a
    by_cases h : (k == ip) = true
    · have hk : k = ip := beq_iff_eq.mp h
      subst hk
      simp [storeClient, lookupClient, List.lookup]
    · have h' : (k == ip) = false := eq_false_of_ne_true h
      have h'' : (ip == k) = false :=
        beq_eq_false_iff_ne.mpr (Ne.symm (beq_eq_false_iff_ne.mp h'))
      simp [storeClient, h', lookupClient, List.lookup, h'']
      simpa [lookupClient] using ih

/-- Helper: a registry whose keys all differ from `ip` has no entry for
`ip`. -/
theorem lookupClient_eq_none_of_no_key :
    ∀ (l : ClientRegistry) (ip : String), (∀ p ∈ l, p.1 ≠ ip) →
      lookupClient l ip = none := by
  intro l ip
  induction l with
  | nil =>
    intro
    rfl
  | cons a rest ih =>
    intro h
    obtain ⟨k, v⟩ := a
    have hk : k ≠ ip := h (k, v) (List.mem_cons_self _ _)
    have hk' : (ip == k) = false := beq_eq_false_iff_ne.mpr (Ne.symm hk)
    simp only [lookupClient, List.lookup, hk']
    exact ih (fun p hp => h p (List.mem_cons_of_mem _ hp))

/-- Helper: one enabled `rateLimit` pass over a registry that already
holds the client just consults and advances that client's limiter. -/
theorem rateLimitStep_entry (cfg : LimiterConfig) (hen : cfg.enabled = true)
    (clients : ClientRegistry) (ip : String) (now : Int) (e : ClientEntry)
    (h : lookupClient clients ip = some e) :
    rateLimitStep cfg clients ip now =
      ((e.limiter.allow now).1,
       storeClient clients ip
         { limiter := (e.limiter.allow now).2, lastSeen := now }) := by
  simp [rateLimitStep, hen, h]

/-- Helper: one enabled `rateLimit` pass for an unseen client creates a
fresh full bucket and consults it. -/
theorem rateLimitStep_fresh (cfg : LimiterConfig) (hen : cfg.enabled = true)
    (clients : ClientRegistry) (ip : String) (now : Int)
    (h : lookupClient clients ip = none) :
    rateLimitStep cfg clients ip now =
      (((RateLimiter.mk' cfg.rps cfg.burst now).allow now).1,
       storeClient clients ip
         { limiter := ((RateLimiter.mk' cfg.rps cfg.burst now).allow now).2
           lastSeen := now }) := by
  simp [rateLimitStep, hen, h]

/-- Helper: once the client is in the registry, the request decisions
are exactly its limiter's decisions. -/
theorem rateLimitRun_entry (cfg : LimiterConfig) (hen : cfg.enabled = true) :
    ∀ (n : Nat) (clients : ClientRegistry) (ip : String) (now : Int) (e : ClientEntry),
      lookupClient clients ip = some e →
      (rateLimitRun cfg clients ip now n).1 = RateLimiter.allowRun e.limiter now n := by
  intro n
  induction n with
  | zero =>
    intro clients ip now e h
    rfl
  | succ n ih =>
    intro clients ip now e h
    simp only [rateLimitRun, rateLimitStep_entry cfg hen clients ip now e h,
      RateLimiter.allowRun]
    have htail := ih (storeClient clients ip
        { limiter := (e.limiter.allow now).2, lastSeen := now }) ip now
        { limiter := (e.limiter.allow now).2, lastSeen := now }
        (lookupClient_storeClient_self clients ip _)
    rw [htail]

/-- Helper: for a client not yet in the registry, the decisions are
those of a fresh full bucket created at the first request. -/
theorem rateLimitRun_fresh (cfg : LimiterConfig) (hen : cfg.enabled = true) :
    ∀ (n : Nat) (clients : ClientRegistry) (ip : String) (now : Int),
      lookupClient clients ip = none →
      (rateLimitRun cfg clients ip now n).1 =
        RateLimiter.allowRun (RateLimiter.mk' cfg.rps cfg.burst now) now n := by
  intro n
  cases n with
  | zero =>
    intro clients ip now h
    rfl
  | succ n =>
    intro clients ip now h
    simp only [rateLimitRun, rateLimitStep_fresh cfg hen clients ip now h,
      RateLimiter.allowRun]
    have htail := rateLimitRun_entry cfg hen n (storeClient clients ip
        { limiter := ((RateLimiter.mk' cfg.rps cfg.burst now).allow now).2
          lastSeen := now }) ip now
        { limiter := ((RateLimiter.mk' cfg.rps cfg.burst now).allow now).2
          lastSeen := now }
        (lookupClient_storeClient_self clients ip _)
    rw [htail]

/-- C6: with the limiter enabled, a previously unseen client identity
issuing `n` requests with no intervening delay is admitted exactly
`min n B` times — the first `B` requests — and denied the remaining
`n - B`; in particular with burst 4 and rate 2/s, five instantaneous
requests from one identity decide [allow, allow, allow, allow, deny]. -/
theorem C6_burst_exhaustion :
    (∀ (cfg : LimiterConfig) (clients : ClientRegistry) (ip : String)
        (now : Int) (n : Nat),
      cfg.enabled = true →
      lookupClient clients ip = none →
      (rateLimitRun cfg clients ip now n).1 =
        List.replicate (min n cfg.burst) true ++
          List.replicate (n - cfg.burst) false) ∧
    (rateLimitRun { enabled := true, rps := 2, burst := 4 } [] "c1" 0 5).1 =
      [true, true, true, true, false] := by
  have hgen : ∀ (cfg : LimiterConfig) (clients : ClientRegistry) (ip : String)
      (now : Int) (n : Nat),
      cfg.enabled = true →
      lookupClient clients ip = none →
      (rateLimitRun cfg clients ip now n).1 =
        List.replicate (min n cfg.burst) true ++
          List.replicate (n - cfg.burst) false := by
    intro cfg clients ip now n hen hnone
    rw [rateLimitRun_fresh cfg hen n clients ip now hnone]
    exact allowRun_integral cfg.rps cfg.burst now n cfg.burst (le_refl _)
  refine ⟨hgen, ?_⟩
  rw [hgen { enabled := true, rps := 2, burst := 4 } [] "c1" 0 5 rfl rfl]
  decide

/-- C6 witness: the general statement applied to the spec scenario
(burst 4, rate 2/s, unseen identity, five instantaneous requests). -/
theorem C6_burst_exhaustion_witness :
    (rateLimitRun { enabled := true, rps := 2, burst := 4 } [] "c1" 0 5).1 =
      List.replicate (min 5 4) true ++ List.replicate (5 - 4) false :=
  C6_burst_exhaustion.1 { enabled := true, rps := 2, burst := 4 } [] "c1" 0 5 rfl rfl

/-- C7: after a sweep tick, a registry entry whose `lastSeen` is more
than 3 minutes old at that tick is absent, and an entry whose
`lastSeen` is within the 3-minute window survives the tick unchanged. -/
theorem C7_sweep_evicts_only_stale :
    ∀ (clients : ClientRegistry) (now : Int) (ip : String) (e : ClientEntry),
      (clients.map Prod.fst).Nodup →
      lookupClient clients ip = some e →
      ((staleAfter < now - e.lastSeen →
          lookupClient (sweepClients clients now) ip = none) ∧
       (¬ staleAfter < now - e.lastSeen →
          lookupClient (sweepClients clients now) ip = some e)) := by
  intro clients now ip e
  induction clients with
  | nil =>
    intro _ hl
    simp [lookupClient, List.lookup] at hl
  | cons a rest ih =>
    intro hnd hl
    obtain ⟨k, v⟩ := a
    rw [List.map_cons, List.nodup_cons] at hnd
    obtain ⟨hka, hndr⟩ := hnd
    by_cases hk : (ip == k) = true
    · have hkey : ip = k := beq_iff_eq.mp hk
      have hv : v = e := by
        simp only [lookupClient, List.lookup, hk] at hl
        exact Option.some.inj hl
      subst hv
      constructor
      · intro hstale
        have hcond : (!(decide (staleAfter < now - v.lastSeen))) = false := by
          simp [hstale]
        simp only [sweepClients, List.filter_cons, hcond, Bool.false_eq_true, if_false]
        apply lookupClient_eq_none_of_no_key
        intro p hp hpeq
        have hpmem : p ∈ rest := List.mem_of_mem_filter hp
        have hmem : p.1 ∈ rest.map Prod.fst := List.mem_map_of_mem Prod.fst hpmem
        rw [hpeq] at hmem
        exact hka (by rw [← hkey]; exact hmem)
      · intro hfresh
        have hcond : (!(decide (staleAfter < now - v.lastSeen))) = true := by
          simp [hfresh]
        simp only [sweepClients, List.filter_cons, hcond, if_true]
        simp [lookupClient, List.lookup, hk]
    · have hk' : (ip == k) = false := eq_false_of_ne_true hk
      have hl' : lookupClient rest ip = some e := by
        simp only [lookupClient, List.lookup, hk'] at hl
        exact hl
      have hih := ih hndr hl'
      constructor
      · intro hstale
        have h1 := hih.1 hstale
        by_cases hkeep : staleAfter < now - v.lastSeen
        · have hcond : (!(decide (staleAfter < now - v.lastSeen))) = false := by
            simp [hkeep]
          simp only [sweepClients, List.filter_cons, hcond, Bool.false_eq_true, if_false]
          exact h1
        · have hcond : (!(decide (staleAfter < now - v.lastSeen))) = true := by
            simp [hkeep]
          simp only [sweepClients, List.filter_cons, hcond, if_true]
          simp only [lookupClient, List.lookup, hk']
          exact h1
      · intro hfresh
        have h2 := hih.2 hfresh
        by_cases hkeep : staleAfter < now - v.lastSeen
        · have hcond : (!(decide (staleAfter < now - v.lastSeen))) = false := by
            simp [hkeep]
          simp only [sweepClients, List.filter_cons, hcond, Bool.false_eq_true, if_false]
          exact h2
        · have hcond : (!(decide (staleAfter < now - v.lastSeen))) = true := by
            simp [hkeep]
          simp only [sweepClients, List.filter_cons, hcond, if_true]
          simp only [lookupClient, List.lookup, hk']
          exact h2

/-- C7 witness: at tick time 1000s, an entry last seen at time 0
(more than 180s ago) is gone after the sweep, while one last seen at
950s (50s ago) survives unchanged. -/
theorem C7_sweep_evicts_only_stale_witness :
    lookupClient (sweepClients
      [("a", { limiter := RateLimiter.mk' 2 4 0, lastSeen := 0 }),
       ("b", { limiter := RateLimiter.mk' 2 4 0, lastSeen := 950 })] 1000) "a" = none ∧
    lookupClient (sweepClients
      [("a", { limiter := RateLimiter.mk' 2 4 0, lastSeen := 0 }),
       ("b", { limiter := RateLimiter.mk' 2 4 0, lastSeen := 950 })] 1000) "b" =
      some { limiter := RateLimiter.mk' 2 4 0, lastSeen := 950 } :=
  ⟨(C7_sweep_evicts_only_stale
      [("a", { limiter := RateLimiter.mk' 2 4 0, lastSeen := 0 }),
       ("b", { limiter := RateLimiter.mk' 2 4 0, lastSeen := 950 })] 1000 "a"
      { limiter := RateLimiter.mk' 2 4 0, lastSeen := 0 }
      (by decide) rfl).1 (by decide),
   (C7_sweep_evicts_only_stale
      [("a", { limiter := RateLimiter.mk' 2 4 0, lastSeen := 0 }),
       ("b", { limiter := RateLimiter.mk' 2 4 0, lastSeen := 950 })] 1000 "b"
      { limiter := RateLimiter.mk' 2 4 0, lastSeen := 950 }
      (by decide) rfl).2 (by decide)⟩

end Cinevault
